import Mathlib

/-!
Verification of the SHolo control core: the inertial rotation controller,
the camera pose controller (`view_3d.py`), the hand-gesture classifier
(`hands_tracking.py`) and the gaze mapper (`eyes_tracking.py`).

Scalar quantities that the Python code holds in floats are modelled as
exact rationals `ℚ` where the code only does field arithmetic and
comparisons, and as reals `ℝ` where the code uses transcendental
functions (`sin`, `cos`, `sqrt`, `arctan2`, `pi`).  A float division
whose divisor is zero produces a non-finite IEEE value in the code; in
the embedding such a fallible division returns `Option`, with `none`
standing for the non-finite result.
-/

/-! ### Configuration constants (`config.py`) -/

def SCREEN_WIDTH_CM : ℚ := 52
def SCREEN_HEIGHT_CM : ℚ := 29.5
def SCREEN_RESOLUTION : ℚ × ℚ := (1920, 1080)
def CAMERA_WIDTH : ℚ := 640
def CAMERA_HEIGHT : ℚ := 480
def FOCAL_LENGTH_MM : ℚ := 3.92
def SENSOR_WIDTH_MM : ℚ := (1 / 2.9) * 2.54 * 10
def FOCAL_LENGTH_PX : ℚ := (FOCAL_LENGTH_MM / SENSOR_WIDTH_MM) * (2 * CAMERA_WIDTH)
def SCENE_SCREEN_DISTANCE_CM : ℚ := 200
def IPD_REAL_CM : ℚ := 6.5
def SWIPE_THRESHOLD : ℚ := 0.15
def STOP_THRESHOLD : ℚ := 0.6
def GESTURE_COOLDOWN : ℚ := 0.5
def VISIBILITY_RESET_TIME : ℚ := 1.5

/-! ### Inertial rotation controller (`view_3d.py`, class `HoloViewer`)

The motion-related attributes of `HoloViewer` (`fps`, `current_speed`,
`base_speed`, `target_speed`, `base_deceleration`, `stop_deceleration`,
`deceleration`, `rotation_direction`).  The camera/scene attributes are
modelled separately below. -/

structure MotionState where
  fps : ℚ
  current_speed : ℚ
  base_speed : ℚ
  target_speed : ℚ
  base_deceleration : ℚ
  stop_deceleration : ℚ
  deceleration : ℚ
  rotation_direction : ℚ
deriving DecidableEq

/-- The state `HoloViewer.__init__` builds with the default keyword
arguments (`fps=24`, `speed=0`, `base_speed=0.125`). -/
def motion_init : MotionState :=
  { fps := 24
    current_speed := 0
    base_speed := 0.125
    target_speed := 0
    base_deceleration := 0.0125
    stop_deceleration := 0.25
    deceleration := 0
    rotation_direction := 1 }

/-- The speed update performed by `HoloViewer._auto_rotate`
(`delta_time = 1 / self.fps`, two-regime deceleration toward
`target_speed`). -/
def auto_rotate_speed (v : MotionState) : ℚ :=
  let delta_time := 1 / v.fps
  if v.current_speed > v.target_speed then
    if v.current_speed - v.target_speed > max v.target_speed v.deceleration then
      v.current_speed * (1 - delta_time) + v.target_speed * delta_time
    else
      max (v.current_speed - v.deceleration * delta_time) v.target_speed
  else
    v.current_speed

/-- One tick of `HoloViewer._auto_rotate`: only `current_speed` is
mutated; every other attribute is left alone. -/
def auto_rotate (v : MotionState) : MotionState :=
  { v with current_speed := auto_rotate_speed v }

/-- The angle of the rotation `_auto_rotate` applies to the scene this
tick: `self.rotation_direction * self.current_speed * 2 * np.pi *
delta_time`, read after `current_speed` has been updated. -/
noncomputable def auto_rotate_increment (v : MotionState) : ℝ :=
  ((v.rotation_direction : ℝ)) * (((auto_rotate v).current_speed : ℝ)) * 2 * Real.pi *
    (((1 / v.fps : ℚ) : ℝ))

/-- `HoloViewer.swipe`: divide the magnitude by 5, add the signed
current velocity, re-derive the direction sign, take the absolute
value, and reset target speed and deceleration. -/
def swipe (v : MotionState) (swipe_magnitude : ℚ) : MotionState :=
  let m := swipe_magnitude / 5
  let cs1 := m + v.current_speed * v.rotation_direction
  let rd : ℚ := if cs1 ≥ 0 then 1 else -1
  { v with
    current_speed := cs1 * rd
    rotation_direction := rd
    target_speed := v.base_speed
    deceleration := v.base_deceleration }

/-- `HoloViewer.stop_rotation`: target speed 0, fast deceleration. -/
def stop_rotation (v : MotionState) : MotionState :=
  { v with target_speed := 0, deceleration := v.stop_deceleration }

/-! ### Gesture classifier (`hands_tracking.py`, class `HandTracker`) -/

/-- One detected hand in a frame: the wrist landmark (index 0, whose
`y` also serves as the palm-center proxy) and the five fingertip `y`
coordinates (landmarks 4, 8, 12, 16, 20), all normalized to `[0,1]`. -/
structure HandSample where
  wrist_x : ℚ
  wrist_y : ℚ
  tip_thumb_y : ℚ
  tip_index_y : ℚ
  tip_middle_y : ℚ
  tip_ring_y : ℚ
  tip_pinky_y : ℚ
deriving DecidableEq

/-- The mutable attributes of `HandTracker` (`prev_x`, `hand_visible`,
`last_seen_time`, `last_gesture_time`). -/
structure HandTrackerState where
  prev_x : Option ℚ
  hand_visible : Bool
  last_seen_time : ℚ
  last_gesture_time : ℚ
deriving DecidableEq

/-- `HandTracker.__init__` state.  The construction instant
(`time.time()` stored in `last_seen_time`) is taken as time 0; all
frame timestamps below are relative to it. -/
def hand_tracker_init : HandTrackerState :=
  { prev_x := none, hand_visible := false, last_seen_time := 0, last_gesture_time := 0 }

/-- A processed camera frame: its timestamp (`time.time()` at
processing) and the detected hand, if any. -/
structure HandFrame where
  t : ℚ
  hand : Option HandSample
deriving DecidableEq

inductive GestureEvent where
  | Swipe (magnitude : ℚ)
  | Stop
deriving DecidableEq

/-- Round half to even, the rounding Python's builtin `round` uses
(idealized over `ℚ`; the code rounds a float). -/
def round_half_even (x : ℚ) : ℤ :=
  let f := ⌊x⌋
  let r := x - f
  if r < 1 / 2 then f
  else if 1 / 2 < r then f + 1
  else if f % 2 = 0 then f else f + 1

/-- Python's `round(x, 2)`. -/
def py_round_2 (x : ℚ) : ℚ := (round_half_even (x * 100) : ℚ) / 100

/-- `HandTracker.handle_swipe`: with a previous wrist position, a
movement whose magnitude exceeds `SWIPE_THRESHOLD` outside the cooldown
window fires `Swipe(sign * round(|movement| * 10, 2))` and resets the
shared gesture timer; `prev_x` is set to `x` in every case. -/
def handle_swipe (s : HandTrackerState) (x t : ℚ) :
    HandTrackerState × List GestureEvent :=
  match s.prev_x with
  | none => ({ s with prev_x := some x }, [])
  | some px =>
    let movement := x - px
    if |movement| > SWIPE_THRESHOLD ∧ t - s.last_gesture_time > GESTURE_COOLDOWN then
      let swipe_magnitude := py_round_2 (|movement| * 10)
      ({ s with prev_x := some x, last_gesture_time := t },
        [GestureEvent.Swipe ((if movement > 0 then 1 else -1) * swipe_magnitude)])
    else
      ({ s with prev_x := some x }, [])

/-- The local `openness` of `HandTracker.handle_stop_gesture`: the
absolute mean of the five fingertip-to-palm `y` differences
(`landmark[0].y` is the palm-center proxy). -/
def openness (hand : HandSample) : ℚ :=
  |((hand.tip_thumb_y - hand.wrist_y) + (hand.tip_index_y - hand.wrist_y) +
      (hand.tip_middle_y - hand.wrist_y) + (hand.tip_ring_y - hand.wrist_y) +
      (hand.tip_pinky_y - hand.wrist_y)) / 5|

/-- `HandTracker.handle_stop_gesture`: an openness above
`STOP_THRESHOLD` outside the cooldown window fires `Stop` and resets
the shared gesture timer. -/
def handle_stop_gesture (s : HandTrackerState) (hand : HandSample) (t : ℚ) :
    HandTrackerState × List GestureEvent :=
  if openness hand > STOP_THRESHOLD ∧ t - s.last_gesture_time > GESTURE_COOLDOWN then
    ({ s with last_gesture_time := t }, [GestureEvent.Stop])
  else
    (s, [])

/-- `HandTracker.track` on one frame: with a detected hand, mark it
visible, record the sighting time, then run swipe detection followed by
stop detection; with no hand, clear `prev_x` (and visibility) only when
the hand had been visible and the last sighting is more than
`VISIBILITY_RESET_TIME` ago.  Emitted events are tagged with the frame
time. -/
def hand_track (s : HandTrackerState) (f : HandFrame) :
    HandTrackerState × List (ℚ × GestureEvent) :=
  match f.hand with
  | some hand =>
    let s1 := { s with hand_visible := true, last_seen_time := f.t }
    let r1 := handle_swipe s1 hand.wrist_x f.t
    let r2 := handle_stop_gesture r1.1 hand f.t
    (r2.1, (r1.2 ++ r2.2).map (fun e => (f.t, e)))
  | none =>
    if s.hand_visible ∧ f.t - s.last_seen_time > VISIBILITY_RESET_TIME then
      ({ s with prev_x := none, hand_visible := false }, [])
    else
      (s, [])

/-- The classifier advanced over a list of frames, collecting the
time-tagged events in order. -/
def hand_track_run (s : HandTrackerState) : List HandFrame →
    HandTrackerState × List (ℚ × GestureEvent)
  | [] => (s, [])
  | f :: rest =>
    let r1 := hand_track s f
    let r2 := hand_track_run r1.1 rest
    (r2.1, r1.2 ++ r2.2)

/-! ### Gaze mapper (`eyes_tracking.py`) -/

/-- Euclidean norm of a 3-vector (`np.linalg.norm`). -/
noncomputable def norm3 (v : Fin 3 → ℝ) : ℝ :=
  Real.sqrt (v 0 ^ 2 + v 1 ^ 2 + v 2 ^ 2)

/-- `np.arctan2 y x` (quadrant-aware arctangent; `arctan2 0 0 = 0`,
signed float zeros having no `ℝ` counterpart). -/
noncomputable def arctan2 (y x : ℝ) : ℝ :=
  if 0 < x then Real.arctan (y / x)
  else if x < 0 then
    (if 0 ≤ y then Real.arctan (y / x) + Real.pi else Real.arctan (y / x) - Real.pi)
  else
    (if 0 < y then Real.pi / 2 else if y < 0 then -(Real.pi / 2) else 0)

/-- `EyeTracker.estimate_distance`: `(IPD_REAL_CM * FOCAL_LENGTH_PX) /
ipd_px`, an unguarded float division; `none` is the non-finite value it
produces when `ipd_px = 0`. -/
noncomputable def estimate_distance (ipd_px : ℝ) : Option ℝ :=
  if ipd_px = 0 then none
  else some (((IPD_REAL_CM * FOCAL_LENGTH_PX : ℚ) : ℝ) / ipd_px)

/-- The inter-pupillary pixel distance `EyeTracker.track` computes from
the two eye-center pixel coordinates:
`np.linalg.norm([left_x, left_y] - [right_x, right_y])`. -/
noncomputable def track_ipd_px (left_x left_y right_x right_y : ℤ) : ℝ :=
  Real.sqrt (((left_x : ℝ) - (right_x : ℝ)) ^ 2 + ((left_y : ℝ) - (right_y : ℝ)) ^ 2)

/-- The `distance_cm` value `EyeTracker.track` hands (unconditionally,
once a face is detected) to `update_eyes_callback`:
`estimate_distance(ipd_px)` with no guard on `ipd_px`. -/
noncomputable def track_distance_cm (left_x left_y right_x right_y : ℤ) : Option ℝ :=
  estimate_distance (track_ipd_px left_x left_y right_x right_y)

/-- The local `yaw_angle` of `compute_gaze_rotation`:
`arctan2(dx_cm, scene_distance_cm)`. -/
noncomputable def gaze_yaw (screen_x : ℤ) (distance_cm : ℝ) : ℝ :=
  arctan2 ((((screen_x : ℝ) - (SCREEN_RESOLUTION.1 : ℝ) / 2) / (SCREEN_RESOLUTION.1 : ℝ)) *
      (SCREEN_WIDTH_CM : ℝ))
    ((SCENE_SCREEN_DISTANCE_CM : ℝ) + distance_cm)

/-- The local `pitch_angle` of `compute_gaze_rotation`:
`arctan2(dy_cm, scene_distance_cm)`. -/
noncomputable def gaze_pitch (screen_y : ℤ) (distance_cm : ℝ) : ℝ :=
  arctan2 ((((screen_y : ℝ) - (SCREEN_RESOLUTION.2 : ℝ) / 2) / (SCREEN_RESOLUTION.2 : ℝ)) *
      (SCREEN_HEIGHT_CM : ℝ))
    ((SCENE_SCREEN_DISTANCE_CM : ℝ) + distance_cm)

/-- `compute_gaze_rotation`: the negated combined angle and the
direction `[pitch, yaw, 0]`, normalized when its norm is positive. -/
noncomputable def compute_gaze_rotation (screen_x screen_y : ℤ) (distance_cm : ℝ) :
    ℝ × (Fin 3 → ℝ) :=
  let yaw_angle := gaze_yaw screen_x distance_cm
  let pitch_angle := gaze_pitch screen_y distance_cm
  let angle := Real.sqrt (yaw_angle ^ 2 + pitch_angle ^ 2)
  let direction : Fin 3 → ℝ := ![pitch_angle, yaw_angle, 0]
  let n := norm3 direction
  (-angle, if n > 0 then fun i => direction i / n else direction)

/-! ### Camera pose controller (`view_3d.py`, `set_camera_angle`) and
the scene transforms it applies (`trimesh.transformations`). -/

/-- `trimesh.transformations.unit_vector`: divide by the Euclidean
norm.  Over floats the zero vector turns into NaNs (0/0); over `ℝ`
Lean's division by zero yields the zero vector instead, so nothing
here is claimed about the zero-direction case — the scene trace below
records which directions were actually handed to `rotation_matrix`. -/
noncomputable def unit_vector (d : Fin 3 → ℝ) : Fin 3 → ℝ :=
  fun i => d i / norm3 d

/-- The rotation part of `trimesh.transformations.rotation_matrix`
applied to an already-normalized axis `u`:
`cos a · I + (1 - cos a) · u uᵀ + sin a · K(u)`. -/
noncomputable def rotation_matrix_unit (a : ℝ) (u : Fin 3 → ℝ) :
    Matrix (Fin 3) (Fin 3) ℝ :=
  Real.cos a • (1 : Matrix (Fin 3) (Fin 3) ℝ) +
    (1 - Real.cos a) • Matrix.vecMulVec u u +
    Real.sin a • !![0, -(u 2), u 1; u 2, 0, -(u 0); -(u 1), u 0, 0]

/-- `trimesh.transformations.rotation_matrix(angle, direction)`:
normalize the axis, then build the Rodrigues matrix. -/
noncomputable def rotation_matrix (a : ℝ) (d : Fin 3 → ℝ) :
    Matrix (Fin 3) (Fin 3) ℝ :=
  rotation_matrix_unit a (unit_vector d)

/-- The camera-related state of `HoloViewer`: the last-applied pose and
the scene, recorded as the trace of `scene.apply_transform` calls, most
recent first (each entry the `(angle, direction)` pair handed to
`rotation_matrix`). -/
structure HoloCamera where
  camera_current_angle : ℝ
  camera_current_direction : Fin 3 → ℝ
  scene : List (ℝ × (Fin 3 → ℝ))

/-- The camera state `HoloViewer.__init__` builds: angle 0, direction
`[0, 1, 0]`, no transform applied yet. -/
noncomputable def camera_init : HoloCamera :=
  { camera_current_angle := 0
    camera_current_direction := ![0, 1, 0]
    scene := [] }

/-- `HoloViewer.set_camera_angle`: unconditionally apply the inverse of
the stored pose, store the new pose, and apply it — there is no branch
on `direction`. -/
noncomputable def set_camera_angle (v : HoloCamera) (angle : ℝ) (direction : Fin 3 → ℝ) :
    HoloCamera :=
  { camera_current_angle := angle
    camera_current_direction := direction
    scene := (angle, direction) ::
      (-v.camera_current_angle, v.camera_current_direction) :: v.scene }

/-- The net scene transform: the product of the applied rotation
matrices, most recent outermost. -/
noncomputable def net_transform (l : List (ℝ × (Fin 3 → ℝ))) :
    Matrix (Fin 3) (Fin 3) ℝ :=
  l.foldr (fun p acc => rotation_matrix p.1 p.2 * acc) 1

/-! ### Theorems: inertial rotation controller (C1, C2, C7) -/

lemma auto_rotate_target_speed (v : MotionState) :
    (auto_rotate v).target_speed = v.target_speed := rfl

lemma auto_rotate_fps (v : MotionState) : (auto_rotate v).fps = v.fps := rfl

lemma auto_rotate_decel_le (w : MotionState) (ht : w.target_speed = 0)
    (h0 : 0 ≤ w.current_speed) (hdt1 : 0 < 1 / w.fps) (hdt2 : 1 / w.fps ≤ 1) :
    0 ≤ (auto_rotate w).current_speed ∧
      (auto_rotate w).current_speed ≤ w.current_speed := by
  have hcs : (auto_rotate w).current_speed = auto_rotate_speed w := rfl
  rw [hcs]
  unfold auto_rotate_speed
  rw [ht]
  by_cases hpos : w.current_speed > 0
  · rw [if_pos hpos]
    by_cases hbig : w.current_speed - 0 > max 0 w.deceleration
    · rw [if_pos hbig]
      constructor
      · nlinarith
      · nlinarith
    · rw [if_neg hbig]
      push_neg at hbig
      have hdec : 0 < w.deceleration := by
        rcases le_or_lt w.deceleration 0 with hd | hd
        · exfalso
          rw [max_eq_left hd] at hbig
          linarith
        · exact hd
      constructor
      · exact le_max_right _ _
      · apply max_le
        · nlinarith
        · linarith
  · rw [if_neg hpos]
    exact ⟨h0, le_refl _⟩

lemma stop_iterate_target (v : MotionState) (n : ℕ) :
    (auto_rotate^[n] (stop_rotation v)).target_speed = 0 ∧
      (auto_rotate^[n] (stop_rotation v)).fps = v.fps := by
  induction n with
  | zero => exact ⟨rfl, rfl⟩
  | succ n ih =>
    rw [Function.iterate_succ_apply']
    exact ⟨(auto_rotate_target_speed _).trans ih.1, (auto_rotate_fps _).trans ih.2⟩

lemma stop_iterate_nonneg (v : MotionState) (h0 : 0 ≤ v.current_speed)
    (hdt1 : 0 < 1 / v.fps) (hdt2 : 1 / v.fps ≤ 1) (n : ℕ) :
    0 ≤ (auto_rotate^[n] (stop_rotation v)).current_speed := by
  induction n with
  | zero => exact h0
  | succ n ih =>
    rw [Function.iterate_succ_apply']
    exact (auto_rotate_decel_le _ (stop_iterate_target v n).1 ih
      (by rw [(stop_iterate_target v n).2]; exact hdt1)
      (by rw [(stop_iterate_target v n).2]; exact hdt2)).1

/-- C1: on a tick with `dt = 1/fps ∈ (0,1]`, if the speed excess over
the target exceeds `max(target_speed, deceleration)` the tick sets
`current_speed` to `current_speed*(1-dt) + target_speed*dt`; otherwise
(still above target) it sets it to
`max(current_speed - deceleration*dt, target_speed)`; and in every case
the rotation increment applied to the scene is
`rotation_direction * current_speed * 2π * dt` computed with the
post-update `current_speed`. -/
theorem auto_rotate_tick_spec (v : MotionState)
    (h1 : 0 < 1 / v.fps) (h2 : 1 / v.fps ≤ 1) :
    ((v.current_speed > v.target_speed ∧
        v.current_speed - v.target_speed > max v.target_speed v.deceleration) →
      (auto_rotate v).current_speed =
        v.current_speed * (1 - 1 / v.fps) + v.target_speed * (1 / v.fps)) ∧
    ((v.current_speed > v.target_speed ∧
        ¬(v.current_speed - v.target_speed > max v.target_speed v.deceleration)) →
      (auto_rotate v).current_speed =
        max (v.current_speed - v.deceleration * (1 / v.fps)) v.target_speed) ∧
    auto_rotate_increment v =
      (v.rotation_direction : ℝ) * ((auto_rotate v).current_speed : ℝ) * 2 * Real.pi *
        ((1 : ℝ) / (v.fps : ℝ)) := by
  refine ⟨?_, ?_, ?_⟩
  · rintro ⟨ha, hb⟩
    simp [auto_rotate, auto_rotate_speed, ha, hb]
  · rintro ⟨ha, hb⟩
    simp [auto_rotate, auto_rotate_speed, ha, hb]
  · unfold auto_rotate_increment
    norm_cast

/-- A state of the viewer mid-run, used to instantiate C1's exponential
branch: speed 1 heading for target 0 under the stop deceleration. -/
def motion_ex : MotionState :=
  { fps := 24
    current_speed := 1
    base_speed := 0.125
    target_speed := 0
    base_deceleration := 0.0125
    stop_deceleration := 0.25
    deceleration := 0.25
    rotation_direction := 1 }

/-- Witness for C1: at `fps = 24`, speed 1, target 0, deceleration
0.25, the exponential branch fires and one tick leaves speed
`1*(1 - 1/24) + 0*(1/24)`. -/
theorem auto_rotate_tick_spec_witness :
    (0 : ℚ) < 1 / motion_ex.fps ∧ (1 : ℚ) / motion_ex.fps ≤ 1 ∧
      (auto_rotate motion_ex).current_speed = 1 * (1 - 1 / 24) + 0 * (1 / 24) := by
  refine ⟨by norm_num [motion_ex], by norm_num [motion_ex], ?_⟩
  have h := (auto_rotate_tick_spec motion_ex (by norm_num [motion_ex])
      (by norm_num [motion_ex])).1
      ⟨by norm_num [motion_ex], by norm_num [motion_ex, max_def]⟩
  simpa [motion_ex] using h

/-- C2: `swipe` computes `signed_speed = m/5 + current_speed *
rotation_direction`, derives the direction from its sign, stores its
absolute value as the new speed, and resets `target_speed` to
`base_speed` and `deceleration` to `base_deceleration`. -/
theorem swipe_spec (v : MotionState) (m : ℚ)
    (h1 : 0 ≤ v.current_speed)
    (h2 : v.rotation_direction = 1 ∨ v.rotation_direction = -1) :
    (swipe v m).rotation_direction =
      (if 0 ≤ m / 5 + v.current_speed * v.rotation_direction then 1 else -1) ∧
    (swipe v m).current_speed = |m / 5 + v.current_speed * v.rotation_direction| ∧
    (swipe v m).target_speed = v.base_speed ∧
    (swipe v m).deceleration = v.base_deceleration := by
  have hcs : (swipe v m).current_speed =
      (m / 5 + v.current_speed * v.rotation_direction) *
        (if 0 ≤ m / 5 + v.current_speed * v.rotation_direction then 1 else -1) := by
    simp [swipe, ge_iff_le]
  rcases le_or_lt 0 (m / 5 + v.current_speed * v.rotation_direction) with h | h
  · refine ⟨by simp [swipe, ge_iff_le, h], ?_, rfl, rfl⟩
    rw [hcs, if_pos h, mul_one, abs_of_nonneg h]
  · refine ⟨by simp [swipe, ge_iff_le, not_le.mpr h], ?_, rfl, rfl⟩
    rw [hcs, if_neg (not_le.mpr h), abs_of_neg h]
    ring

/-- Witness for C2: magnitude `+2.0` from rest with direction `+1`
gives speed `0.4`, direction `+1`, target `base_speed`. -/
theorem swipe_spec_witness :
    (0 : ℚ) ≤ motion_init.current_speed ∧
    (swipe motion_init 2).current_speed = 0.4 ∧
    (swipe motion_init 2).rotation_direction = 1 ∧
    (swipe motion_init 2).target_speed = motion_init.base_speed := by
  have h := swipe_spec motion_init 2 (by norm_num [motion_init]) (Or.inl rfl)
  refine ⟨by norm_num [motion_init], ?_, ?_, h.2.2.1⟩
  · rw [h.2.1]
    norm_num [motion_init]
  · rw [h.1]
    norm_num [motion_init]

/-- C7: from any state with nonnegative speed, after `stop_rotation`
every subsequent tick keeps the speed nonnegative and never increases
it; and a tick taken with `current_speed ≤ target_speed` leaves
`current_speed` unchanged. -/
theorem stop_then_ticks_monotone (v : MotionState) (h0 : 0 ≤ v.current_speed)
    (hdt1 : 0 < 1 / v.fps) (hdt2 : 1 / v.fps ≤ 1) :
    (∀ n : ℕ, 0 ≤ (auto_rotate^[n] (stop_rotation v)).current_speed) ∧
    (∀ n : ℕ, (auto_rotate^[n + 1] (stop_rotation v)).current_speed ≤
      (auto_rotate^[n] (stop_rotation v)).current_speed) ∧
    (∀ w : MotionState, w.current_speed ≤ w.target_speed →
      (auto_rotate w).current_speed = w.current_speed) := by
  refine ⟨stop_iterate_nonneg v h0 hdt1 hdt2, ?_, ?_⟩
  · intro n
    rw [Function.iterate_succ_apply']
    exact (auto_rotate_decel_le _ (stop_iterate_target v n).1
      (stop_iterate_nonneg v h0 hdt1 hdt2 n)
      (by rw [(stop_iterate_target v n).2]; exact hdt1)
      (by rw [(stop_iterate_target v n).2]; exact hdt2)).2
  · intro w hw
    simp [auto_rotate, auto_rotate_speed, not_lt.mpr hw]

/-- Witness for C7: from `motion_ex` (speed 1, `fps = 24`), stop then
two ticks: speeds stay nonnegative and non-increasing, and a tick from
rest leaves `motion_init` at speed 0. -/
theorem stop_then_ticks_monotone_witness :
    (0 : ℚ) ≤ motion_ex.current_speed ∧
    0 ≤ (auto_rotate^[2] (stop_rotation motion_ex)).current_speed ∧
    (auto_rotate^[2] (stop_rotation motion_ex)).current_speed ≤
      (auto_rotate^[1] (stop_rotation motion_ex)).current_speed ∧
    (auto_rotate motion_init).current_speed = motion_init.current_speed := by
  have h := stop_then_ticks_monotone motion_ex (by norm_num [motion_ex])
    (by norm_num [motion_ex]) (by norm_num [motion_ex])
  exact ⟨by norm_num [motion_ex], h.1 2, h.2.1 1, h.2.2 motion_init (by norm_num [motion_init])⟩

/-! ### Theorems: gesture classifier (C5, C6, C10) -/

lemma handle_swipe_cases (s : HandTrackerState) (x t : ℚ) :
    ((handle_swipe s x t).2 = [] ∧
      (handle_swipe s x t).1.last_gesture_time = s.last_gesture_time) ∨
    ((∃ m, (handle_swipe s x t).2 = [GestureEvent.Swipe m]) ∧
      (handle_swipe s x t).1.last_gesture_time = t ∧
      t - s.last_gesture_time > GESTURE_COOLDOWN) := by
  unfold handle_swipe
  cases hp : s.prev_x with
  | none => exact Or.inl ⟨rfl, rfl⟩
  | some px =>
    dsimp only
    by_cases hc : |x - px| > SWIPE_THRESHOLD ∧ t - s.last_gesture_time > GESTURE_COOLDOWN
    · rw [if_pos hc]
      exact Or.inr ⟨⟨_, rfl⟩, rfl, hc.2⟩
    · rw [if_neg hc]
      exact Or.inl ⟨rfl, rfl⟩

lemma handle_swipe_prev_none (s : HandTrackerState) (x t : ℚ) (hp : s.prev_x = none) :
    (handle_swipe s x t).2 = [] ∧
      (handle_swipe s x t).1.last_gesture_time = s.last_gesture_time := by
  unfold handle_swipe
  rw [hp]
  exact ⟨rfl, rfl⟩

lemma handle_stop_gesture_cases (s : HandTrackerState) (hand : HandSample) (t : ℚ) :
    ((handle_stop_gesture s hand t).2 = [] ∧
      (handle_stop_gesture s hand t).1.last_gesture_time = s.last_gesture_time) ∨
    ((handle_stop_gesture s hand t).2 = [GestureEvent.Stop] ∧
      (handle_stop_gesture s hand t).1.last_gesture_time = t ∧
      t - s.last_gesture_time > GESTURE_COOLDOWN) := by
  unfold handle_stop_gesture
  by_cases hc : openness hand > STOP_THRESHOLD ∧ t - s.last_gesture_time > GESTURE_COOLDOWN
  · rw [if_pos hc]
    exact Or.inr ⟨rfl, rfl, hc.2⟩
  · rw [if_neg hc]
    exact Or.inl ⟨rfl, rfl⟩

lemma handle_stop_gesture_blocked (s : HandTrackerState) (hand : HandSample)
    (hlg : s.last_gesture_time = t) :
    (handle_stop_gesture s hand t).2 = [] ∧
      (handle_stop_gesture s hand t).1.last_gesture_time = s.last_gesture_time := by
  unfold handle_stop_gesture
  rw [if_neg]
  · exact ⟨rfl, rfl⟩
  · rintro ⟨-, habs⟩
    rw [hlg] at habs
    norm_num [GESTURE_COOLDOWN] at habs

/-- Every frame produces at most one gesture event; when one is
produced it is stamped with the frame time, the shared gesture timer is
set to the frame time, and the frame time exceeds the previous timer
value by more than `GESTURE_COOLDOWN`. -/
lemma hand_track_cases (s : HandTrackerState) (f : HandFrame) :
    ((hand_track s f).2 = [] ∧
      (hand_track s f).1.last_gesture_time = s.last_gesture_time) ∨
    (∃ e, (hand_track s f).2 = [(f.t, e)] ∧
      (hand_track s f).1.last_gesture_time = f.t ∧
      f.t - s.last_gesture_time > GESTURE_COOLDOWN) := by
  cases hh : f.hand with
  | none =>
    left
    unfold hand_track
    rw [hh]
    dsimp only
    split
    · exact ⟨rfl, rfl⟩
    · exact ⟨rfl, rfl⟩
  | some hand =>
    unfold hand_track
    rw [hh]
    dsimp only
    have hs1 : ({ s with hand_visible := true, last_seen_time := f.t } :
        HandTrackerState).last_gesture_time = s.last_gesture_time := rfl
    rcases handle_swipe_cases { s with hand_visible := true, last_seen_time := f.t }
        hand.wrist_x f.t with ⟨he1, hl1⟩ | ⟨⟨m, he1⟩, hl1, hgap⟩
    · rcases handle_stop_gesture_cases
          (handle_swipe { s with hand_visible := true, last_seen_time := f.t }
            hand.wrist_x f.t).1 hand f.t with ⟨he2, hl2⟩ | ⟨he2, hl2, hgap⟩
      · left
        rw [he1, he2, hl2, hl1]
        exact ⟨rfl, hs1⟩
      · right
        refine ⟨GestureEvent.Stop, ?_, hl2, ?_⟩
        · rw [he1, he2]
          rfl
        · rw [hl1, hs1] at hgap
          exact hgap
    · right
      have hblock := handle_stop_gesture_blocked
        (handle_swipe { s with hand_visible := true, last_seen_time := f.t }
          hand.wrist_x f.t).1 hand hl1
      refine ⟨GestureEvent.Swipe m, ?_, ?_, ?_⟩
      · rw [he1, hblock.1]
        rfl
      · rw [hblock.2, hl1]
      · rw [hs1] at hgap
        exact hgap

/-- The timestamps of a time-tagged event list each exceed their
predecessor (or the anchor `g`) by more than `GESTURE_COOLDOWN`. -/
def sep_from (g : ℚ) : List (ℚ × GestureEvent) → Prop
  | [] => True
  | p :: rest => p.1 - g > GESTURE_COOLDOWN ∧ sep_from p.1 rest

/-- The last timestamp of the list, or the anchor if it is empty. -/
def last_time (g : ℚ) (l : List (ℚ × GestureEvent)) : ℚ :=
  l.foldl (fun _ p => p.1) g

lemma last_time_append (g : ℚ) (l1 l2 : List (ℚ × GestureEvent)) :
    last_time g (l1 ++ l2) = last_time (last_time g l1) l2 := by
  simp [last_time, List.foldl_append]

lemma hand_track_run_sep (fs : List HandFrame) (s : HandTrackerState) :
    sep_from s.last_gesture_time (hand_track_run s fs).2 ∧
      (hand_track_run s fs).1.last_gesture_time =
        last_time s.last_gesture_time (hand_track_run s fs).2 := by
  induction fs generalizing s with
  | nil => exact ⟨trivial, rfl⟩
  | cons f rest ih =>
    have hrun : hand_track_run s (f :: rest) =
        ((hand_track_run (hand_track s f).1 rest).1,
          (hand_track s f).2 ++ (hand_track_run (hand_track s f).1 rest).2) := rfl
    rcases hand_track_cases s f with ⟨he, hl⟩ | ⟨e, he, hl, hgap⟩
    · rw [hrun, he]
      have := ih (hand_track s f).1
      rw [hl] at this
      simpa using this
    · rw [hrun, he]
      have := ih (hand_track s f).1
      rw [hl] at this
      refine ⟨⟨hgap, this.1⟩, ?_⟩
      rw [last_time_append]
      exact this.2

lemma sep_from_pairwise (l : List (ℚ × GestureEvent)) :
    ∀ g : ℚ, sep_from g l →
      l.Pairwise (fun a b => b.1 - a.1 > GESTURE_COOLDOWN) ∧
        ∀ p ∈ l, p.1 - g > GESTURE_COOLDOWN := by
  induction l with
  | nil => exact fun g _ => ⟨List.Pairwise.nil, by simp⟩
  | cons p rest ih =>
    rintro g ⟨h1, h2⟩
    obtain ⟨hpw, hall⟩ := ih p.1 h2
    refine ⟨List.Pairwise.cons (fun b hb => hall b hb) hpw, ?_⟩
    intro q hq
    rcases List.mem_cons.mp hq with rfl | hq2
    · exact h1
    · have := hall q hq2
      have hC : GESTURE_COOLDOWN = 1 / 2 := by norm_num [GESTURE_COOLDOWN]
      rw [hC] at h1 this ⊢
      linarith

/-- C5: in any run of the classifier, any two emitted gesture events
(swipe or stop, in any combination) are separated in time by more than
`GESTURE_COOLDOWN`, because both detectors share and reset the single
`last_gesture_time`; in particular the second of two would-be swipes
within the cooldown window is suppressed. -/
theorem gesture_events_separated (s : HandTrackerState) (fs : List HandFrame) :
    ((hand_track_run s fs).2).Pairwise
      (fun a b => b.1 - a.1 > GESTURE_COOLDOWN) :=
  (sep_from_pairwise _ _ (hand_track_run_sep fs s).1).1

/-- C10: within a single processed frame, if a swipe event is emitted
then no stop event is emitted in that same frame — swipe detection runs
first and resets the shared gesture timer to the frame time, so the
stop detector's cooldown test fails. -/
theorem swipe_suppresses_stop (s : HandTrackerState) (f : HandFrame)
    (h : ∃ p ∈ (hand_track s f).2, ∃ m, p.2 = GestureEvent.Swipe m) :
    ∀ q ∈ (hand_track s f).2, q.2 ≠ GestureEvent.Stop := by
  rcases hand_track_cases s f with ⟨he, -⟩ | ⟨e, he, -, -⟩
  · rw [he] at h
    exact absurd h (by simp)
  · rw [he] at h ⊢
    obtain ⟨p, hp, m, hm⟩ := h
    have hp2 : p = (f.t, e) := List.mem_singleton.mp hp
    subst hp2
    intro q hq
    have hq2 : q = (f.t, e) := List.mem_singleton.mp hq
    subst hq2
    rw [hm]
    simp

/-- A fully open hand (all fingertip-to-palm distances 0.7) moving
rightward: both the swipe and the stop conditions hold on the same
frame. -/
def hand_open_sample : HandSample :=
  { wrist_x := 0.5, wrist_y := 0, tip_thumb_y := 0.7, tip_index_y := 0.7,
    tip_middle_y := 0.7, tip_ring_y := 0.7, tip_pinky_y := 0.7 }

/-- A tracker that has already seen the wrist at `x = 0.2`. -/
def hand_state_prev : HandTrackerState :=
  { prev_x := some 0.2, hand_visible := true, last_seen_time := 0, last_gesture_time := 0 }

/-- Witness for C10: on one frame where both the swipe condition
(movement 0.3) and the stop condition (openness 0.7) hold, the swipe is
emitted and the stop is suppressed. -/
theorem swipe_suppresses_stop_witness :
    (∃ p ∈ (hand_track hand_state_prev ⟨1, some hand_open_sample⟩).2,
      ∃ m, p.2 = GestureEvent.Swipe m) ∧
    STOP_THRESHOLD < openness hand_open_sample ∧
    ∀ q ∈ (hand_track hand_state_prev ⟨1, some hand_open_sample⟩).2,
      q.2 ≠ GestureEvent.Stop := by
  have hev : (hand_track hand_state_prev ⟨1, some hand_open_sample⟩).2 =
      [(1, GestureEvent.Swipe 3)] := by
    norm_num [hand_track, handle_swipe, handle_stop_gesture, openness, hand_state_prev,
      hand_open_sample, SWIPE_THRESHOLD, GESTURE_COOLDOWN, STOP_THRESHOLD, py_round_2,
      round_half_even, abs_of_pos]
  refine ⟨?_, by norm_num [STOP_THRESHOLD, openness, hand_open_sample, abs_of_pos],
    swipe_suppresses_stop hand_state_prev ⟨1, some hand_open_sample⟩ ?_⟩
  · rw [hev]
    exact ⟨(1, GestureEvent.Swipe 3), by simp, 3, rfl⟩
  · rw [hev]
    exact ⟨(1, GestureEvent.Swipe 3), by simp, 3, rfl⟩

/-- A closed hand seen at wrist `x = 0.2`. -/
def hand_sample_a : HandSample :=
  { wrist_x := 0.2, wrist_y := 0, tip_thumb_y := 0, tip_index_y := 0,
    tip_middle_y := 0, tip_ring_y := 0, tip_pinky_y := 0 }

/-- The same hand reacquired at wrist `x = 0.5`. -/
def hand_sample_b : HandSample :=
  { wrist_x := 0.5, wrist_y := 0, tip_thumb_y := 0, tip_index_y := 0,
    tip_middle_y := 0, tip_ring_y := 0, tip_pinky_y := 0 }

/-- Hand seen at `t = 0`, one hand-free frame at `t = 1.4` (within the
reset window, so no clearing), reacquisition at `t = 3`. -/
def frames_reacquire : List HandFrame :=
  [⟨0, some hand_sample_a⟩, ⟨1.4, none⟩, ⟨3, some hand_sample_b⟩]

/-- Counterexample to C6: the hand is visible at `t = 0` and then
undetected until `t = 3 > VISIBILITY_RESET_TIME`, yet `prev_x` is never
cleared (the only hand-free frame is processed at `t = 1.4`, inside the
window), and the very first sample after reacquisition emits
`Swipe 3.0` from the stale position. -/
theorem reacquired_swipe_counterexample :
    (hand_track hand_tracker_init ⟨0, some hand_sample_a⟩).1.hand_visible = true ∧
    (3 : ℚ) - 0 > VISIBILITY_RESET_TIME ∧
    (hand_track_run hand_tracker_init frames_reacquire).2 =
      [(3, GestureEvent.Swipe 3)] := by
  refine ⟨?_, by norm_num [VISIBILITY_RESET_TIME], ?_⟩
  · norm_num [hand_track, handle_swipe, handle_stop_gesture, openness, hand_tracker_init,
      hand_sample_a, SWIPE_THRESHOLD, GESTURE_COOLDOWN, STOP_THRESHOLD]
  · norm_num [hand_track_run, hand_track, handle_swipe, handle_stop_gesture, openness,
      hand_tracker_init, hand_sample_a, hand_sample_b, frames_reacquire, SWIPE_THRESHOLD,
      GESTURE_COOLDOWN, STOP_THRESHOLD, VISIBILITY_RESET_TIME, py_round_2,
      round_half_even, abs_of_pos]

/-- C6 as amended: `prev_x` is cleared when a frame with no detected
hand is processed more than `VISIBILITY_RESET_TIME` after the hand was
last seen; and a frame processed from any state with no stored previous
position (in particular the cleared one, or a hand appearing for its
first frame) cannot emit a swipe. -/
theorem visibility_reset_amended (s : HandTrackerState) (f g : HandFrame)
    (hf : f.hand = none) (hv : s.hand_visible = true)
    (hgap : f.t - s.last_seen_time > VISIBILITY_RESET_TIME) :
    ((hand_track s f).1).prev_x = none ∧
    (∀ s2 : HandTrackerState, s2.prev_x = none →
      ∀ p ∈ (hand_track s2 g).2, ∀ m, p.2 ≠ GestureEvent.Swipe m) := by
  constructor
  · unfold hand_track
    rw [hf]
    dsimp only
    rw [if_pos ⟨hv, hgap⟩]
  · intro s2 hpx p hp m
    cases hg : g.hand with
    | none =>
      unfold hand_track at hp
      rw [hg] at hp
      dsimp only at hp
      split at hp
      · simp at hp
      · simp at hp
    | some hand =>
      unfold hand_track at hp
      rw [hg] at hp
      dsimp only at hp
      have hs1 : ({ s2 with hand_visible := true, last_seen_time := g.t } :
          HandTrackerState).prev_x = none := hpx
      have hsw := handle_swipe_prev_none
        { s2 with hand_visible := true, last_seen_time := g.t } hand.wrist_x g.t hs1
      rw [hsw.1] at hp
      rcases handle_stop_gesture_cases
          (handle_swipe { s2 with hand_visible := true, last_seen_time := g.t }
            hand.wrist_x g.t).1 hand g.t with ⟨he2, -⟩ | ⟨he2, -, -⟩
      · rw [he2] at hp
        simp at hp
      · rw [he2] at hp
        simp only [List.nil_append, List.map_cons, List.map_nil,
          List.mem_singleton] at hp
        rw [hp]
        simp

/-- Witness for C6 (amended): seen at `t = 0`, a hand-free frame at
`t = 2` clears `prev_x`, and the reacquisition frame at `t = 3` emits
no swipe. -/
theorem visibility_reset_amended_witness :
    hand_state_prev.hand_visible = true ∧
    (2 : ℚ) - hand_state_prev.last_seen_time > VISIBILITY_RESET_TIME ∧
    ((hand_track hand_state_prev ⟨2, none⟩).1).prev_x = none ∧
    (∀ p ∈ (hand_track (hand_track hand_state_prev ⟨2, none⟩).1
        ⟨3, some hand_sample_b⟩).2, ∀ m, p.2 ≠ GestureEvent.Swipe m) := by
  have h := visibility_reset_amended hand_state_prev ⟨2, none⟩ ⟨3, some hand_sample_b⟩
    rfl rfl (by norm_num [VISIBILITY_RESET_TIME, hand_state_prev])
  exact ⟨rfl, by norm_num [VISIBILITY_RESET_TIME, hand_state_prev], h.1, h.2 _ h.1⟩

/-! ### Theorems: gaze mapper (C4, C8) -/

lemma norm3_nonneg (v : Fin 3 → ℝ) : 0 ≤ norm3 v := Real.sqrt_nonneg _

lemma norm3_eq_zero_iff (v : Fin 3 → ℝ) : norm3 v = 0 ↔ v = 0 := by
  constructor
  · intro h
    have hS : v 0 ^ 2 + v 1 ^ 2 + v 2 ^ 2 ≤ 0 := Real.sqrt_eq_zero'.mp h
    have h0 : v 0 ^ 2 = 0 :=
      le_antisymm (by nlinarith [sq_nonneg (v 1), sq_nonneg (v 2)]) (sq_nonneg _)
    have h1 : v 1 ^ 2 = 0 :=
      le_antisymm (by nlinarith [sq_nonneg (v 0), sq_nonneg (v 2)]) (sq_nonneg _)
    have h2 : v 2 ^ 2 = 0 :=
      le_antisymm (by nlinarith [sq_nonneg (v 0), sq_nonneg (v 1)]) (sq_nonneg _)
    funext i
    fin_cases i
    · exact sq_eq_zero_iff.mp h0
    · exact sq_eq_zero_iff.mp h1
    · exact sq_eq_zero_iff.mp h2
  · rintro rfl
    simp [norm3]

lemma norm3_pos_of_ne (v : Fin 3 → ℝ) (h : v ≠ 0) : 0 < norm3 v :=
  lt_of_le_of_ne (norm3_nonneg v) (fun he => h ((norm3_eq_zero_iff v).mp he.symm))

lemma norm3_normalize (v : Fin 3 → ℝ) (h : 0 < norm3 v) :
    norm3 (fun i => v i / norm3 v) = 1 := by
  have hge : (0 : ℝ) ≤ v 0 ^ 2 + v 1 ^ 2 + v 2 ^ 2 := by positivity
  have hS : norm3 v ^ 2 = v 0 ^ 2 + v 1 ^ 2 + v 2 ^ 2 := Real.sq_sqrt hge
  have hn0 : norm3 v ≠ 0 := ne_of_gt h
  show Real.sqrt ((v 0 / norm3 v) ^ 2 + (v 1 / norm3 v) ^ 2 + (v 2 / norm3 v) ^ 2) = 1
  have hone : (v 0 / norm3 v) ^ 2 + (v 1 / norm3 v) ^ 2 + (v 2 / norm3 v) ^ 2 = 1 := by
    field_simp
    linarith [hS]
  rw [hone, Real.sqrt_one]

/-- C4 evaluated at the degenerate input: with both eye centers at the
same pixel `(320, 240)` the inter-pupillary pixel distance is 0, and
`track` — with no guard — hands the callback the non-finite
`distance_cm` produced by the division by zero.  (The claim says this
degenerate geometry is detected and short-circuited; the code has no
such check.) -/
theorem track_distance_zero_ipd :
    track_ipd_px 320 240 320 240 = 0 ∧
    track_distance_cm 320 240 320 240 = none := by
  have h : track_ipd_px 320 240 320 240 = 0 := by
    unfold track_ipd_px
    norm_num
  refine ⟨h, ?_⟩
  unfold track_distance_cm estimate_distance
  rw [h]
  simp

/-- C8: for any screen point and positive distance,
`compute_gaze_rotation` returns `angle = -sqrt(yaw² + pitch²)`, a
direction that is `[pitch, yaw, 0]` normalized when that vector is
nonzero and the zero vector unchanged otherwise, and hence a direction
whose Euclidean norm is exactly 0 or exactly 1. -/
theorem compute_gaze_rotation_spec (sx sy : ℤ) (d : ℝ) (hd : 0 < d) :
    (compute_gaze_rotation sx sy d).1 =
      -Real.sqrt (gaze_yaw sx d ^ 2 + gaze_pitch sy d ^ 2) ∧
    (((![gaze_pitch sy d, gaze_yaw sx d, 0] : Fin 3 → ℝ) ≠ 0) →
      (compute_gaze_rotation sx sy d).2 =
        fun i => (![gaze_pitch sy d, gaze_yaw sx d, 0] : Fin 3 → ℝ) i /
          norm3 ![gaze_pitch sy d, gaze_yaw sx d, 0]) ∧
    (((![gaze_pitch sy d, gaze_yaw sx d, 0] : Fin 3 → ℝ) = 0) →
      (compute_gaze_rotation sx sy d).2 = ![gaze_pitch sy d, gaze_yaw sx d, 0]) ∧
    (norm3 (compute_gaze_rotation sx sy d).2 = 0 ∨
      norm3 (compute_gaze_rotation sx sy d).2 = 1) := by
  have h1 : (compute_gaze_rotation sx sy d).1 =
      -Real.sqrt (gaze_yaw sx d ^ 2 + gaze_pitch sy d ^ 2) := rfl
  by_cases hz : (![gaze_pitch sy d, gaze_yaw sx d, 0] : Fin 3 → ℝ) = 0
  · have hn : norm3 ![gaze_pitch sy d, gaze_yaw sx d, 0] = 0 :=
      (norm3_eq_zero_iff _).mpr hz
    have h2 : (compute_gaze_rotation sx sy d).2 =
        ![gaze_pitch sy d, gaze_yaw sx d, 0] := by
      show (if norm3 ![gaze_pitch sy d, gaze_yaw sx d, 0] > 0 then
        (fun i => (![gaze_pitch sy d, gaze_yaw sx d, 0] : Fin 3 → ℝ) i /
          norm3 ![gaze_pitch sy d, gaze_yaw sx d, 0])
        else ![gaze_pitch sy d, gaze_yaw sx d, 0]) = _
      rw [if_neg]
      rw [hn]
      norm_num
    refine ⟨h1, fun hne => absurd hz hne, fun _ => h2, Or.inl ?_⟩
    rw [h2, hn]
  · have hpos : 0 < norm3 ![gaze_pitch sy d, gaze_yaw sx d, 0] :=
      norm3_pos_of_ne _ hz
    have h2 : (compute_gaze_rotation sx sy d).2 =
        fun i => (![gaze_pitch sy d, gaze_yaw sx d, 0] : Fin 3 → ℝ) i /
          norm3 ![gaze_pitch sy d, gaze_yaw sx d, 0] := by
      show (if norm3 ![gaze_pitch sy d, gaze_yaw sx d, 0] > 0 then
        (fun i => (![gaze_pitch sy d, gaze_yaw sx d, 0] : Fin 3 → ℝ) i /
          norm3 ![gaze_pitch sy d, gaze_yaw sx d, 0])
        else ![gaze_pitch sy d, gaze_yaw sx d, 0]) = _
      rw [if_pos hpos]
    refine ⟨h1, fun _ => h2, fun h0 => absurd h0 hz, Or.inr ?_⟩
    rw [h2]
    exact norm3_normalize _ hpos

/-- Witness for C8: gaze at the exact screen center from 100 cm; the
returned direction has norm 0 or 1. -/
theorem compute_gaze_rotation_spec_witness :
    (0 : ℝ) < 100 ∧
      (norm3 (compute_gaze_rotation 960 540 100).2 = 0 ∨
        norm3 (compute_gaze_rotation 960 540 100).2 = 1) :=
  ⟨by norm_num, (compute_gaze_rotation_spec 960 540 100 (by norm_num)).2.2.2⟩

/-! ### Theorems: camera pose controller (C3, C9) -/

lemma rotation_matrix_unit_eq (a : ℝ) (u : Fin 3 → ℝ) :
    rotation_matrix_unit a u =
      !![Real.cos a + (1 - Real.cos a) * (u 0 * u 0),
         (1 - Real.cos a) * (u 0 * u 1) - Real.sin a * u 2,
         (1 - Real.cos a) * (u 0 * u 2) + Real.sin a * u 1;
         (1 - Real.cos a) * (u 1 * u 0) + Real.sin a * u 2,
         Real.cos a + (1 - Real.cos a) * (u 1 * u 1),
         (1 - Real.cos a) * (u 1 * u 2) - Real.sin a * u 0;
         (1 - Real.cos a) * (u 2 * u 0) - Real.sin a * u 1,
         (1 - Real.cos a) * (u 2 * u 1) + Real.sin a * u 0,
         Real.cos a + (1 - Real.cos a) * (u 2 * u 2)] := by
  ext i j
  fin_cases i <;> fin_cases j <;>
    simp [rotation_matrix_unit, Matrix.vecMulVec_apply, Matrix.one_apply] <;> ring

set_option maxHeartbeats 1000000 in
lemma rotation_matrix_unit_inverse (a : ℝ) (u : Fin 3 → ℝ)
    (hu : u 0 ^ 2 + u 1 ^ 2 + u 2 ^ 2 = 1) :
    rotation_matrix_unit a u * rotation_matrix_unit (-a) u = 1 := by
  have hc : Real.sin a ^ 2 + Real.cos a ^ 2 = 1 := Real.sin_sq_add_cos_sq a
  rw [rotation_matrix_unit_eq a u, rotation_matrix_unit_eq (-a) u, Real.cos_neg,
    Real.sin_neg, Matrix.mul_fin_three, Matrix.one_fin_three]
  ext i j
  fin_cases i <;> fin_cases j <;> simp [Matrix.vecHead, Matrix.vecTail] <;>
    first
      | linear_combination ((1 - Real.cos a) ^ 2 * (u 0 * u 0) + Real.sin a ^ 2) * hu +
          (1 - u 0 * u 0) * hc
      | linear_combination ((1 - Real.cos a) ^ 2 * (u 1 * u 1) + Real.sin a ^ 2) * hu +
          (1 - u 1 * u 1) * hc
      | linear_combination ((1 - Real.cos a) ^ 2 * (u 2 * u 2) + Real.sin a ^ 2) * hu +
          (1 - u 2 * u 2) * hc
      | linear_combination ((1 - Real.cos a) ^ 2 * (u 0 * u 1)) * hu + (-(u 0 * u 1)) * hc
      | linear_combination ((1 - Real.cos a) ^ 2 * (u 0 * u 2)) * hu + (-(u 0 * u 2)) * hc
      | linear_combination ((1 - Real.cos a) ^ 2 * (u 1 * u 2)) * hu + (-(u 1 * u 2)) * hc

lemma unit_vector_norm_sq (d : Fin 3 → ℝ) (h : d ≠ 0) :
    unit_vector d 0 ^ 2 + unit_vector d 1 ^ 2 + unit_vector d 2 ^ 2 = 1 := by
  have hpos : 0 < norm3 d := norm3_pos_of_ne d h
  have hne : norm3 d ≠ 0 := ne_of_gt hpos
  have hS : norm3 d ^ 2 = d 0 ^ 2 + d 1 ^ 2 + d 2 ^ 2 := Real.sq_sqrt (by positivity)
  unfold unit_vector
  field_simp
  linarith [hS]

/-- For a nonzero axis, `rotation_matrix` at the negated angle is a
left inverse: undo-then-apply of the same pose cancels. -/
lemma rotation_matrix_inverse (a : ℝ) (d : Fin 3 → ℝ) (h : d ≠ 0) :
    rotation_matrix a d * rotation_matrix (-a) d = 1 :=
  rotation_matrix_unit_inverse a (unit_vector d) (unit_vector_norm_sq d h)

/-- C9: for a non-degenerate direction, calling `set_camera_angle`
twice with the same `(angle, direction)` leaves the net applied scene
transform identical to its state after the first call. -/
theorem set_camera_angle_idempotent (v : HoloCamera) (a : ℝ) (d : Fin 3 → ℝ)
    (hd : d ≠ 0) :
    net_transform ((set_camera_angle (set_camera_angle v a d) a d).scene) =
      net_transform ((set_camera_angle v a d).scene) := by
  have h1 : net_transform ((set_camera_angle (set_camera_angle v a d) a d).scene) =
      rotation_matrix a d * (rotation_matrix (-a) d *
        net_transform ((set_camera_angle v a d).scene)) := rfl
  rw [h1, ← mul_assoc, rotation_matrix_inverse a d hd, one_mul]

/-- Witness for C9: a repeated `set_camera_angle` with angle 1 about
the (nonzero) `y` axis leaves the net scene transform unchanged. -/
theorem set_camera_angle_idempotent_witness :
    ((![0, 1, 0] : Fin 3 → ℝ) ≠ 0) ∧
      net_transform ((set_camera_angle (set_camera_angle camera_init 1 ![0, 1, 0]) 1
          ![0, 1, 0]).scene) =
        net_transform ((set_camera_angle camera_init 1 ![0, 1, 0]).scene) := by
  have hd : (![0, 1, 0] : Fin 3 → ℝ) ≠ 0 := by
    intro h
    have h1 := congrFun h 1
    simp at h1
  exact ⟨hd, set_camera_angle_idempotent camera_init 1 ![0, 1, 0] hd⟩

/-- C3 evaluated at the degenerate input: a gaze at the exact screen
center produces the zero direction, and `set_camera_angle` — which has
no branch on `direction` — still records an applied rotation about the
zero axis in the scene trace instead of skipping it.  (Over floats that
application normalizes the zero vector by `0/0`, a non-finite
transform.) -/
theorem set_camera_angle_zero_direction_applied :
    (compute_gaze_rotation 960 540 100).2 = 0 ∧
    (set_camera_angle camera_init 0 0).scene =
      [(0, (0 : Fin 3 → ℝ)),
        (-camera_init.camera_current_angle, camera_init.camera_current_direction)] := by
  constructor
  · have hy : gaze_yaw 960 100 = 0 := by
      unfold gaze_yaw arctan2
      norm_num [SCREEN_RESOLUTION, SCREEN_WIDTH_CM, SCENE_SCREEN_DISTANCE_CM]
    have hp : gaze_pitch 540 100 = 0 := by
      unfold gaze_pitch arctan2
      norm_num [SCREEN_RESOLUTION, SCREEN_HEIGHT_CM, SCENE_SCREEN_DISTANCE_CM]
    have hzero : (![gaze_pitch 540 100, gaze_yaw 960 100, 0] : Fin 3 → ℝ) = 0 := by
      rw [hy, hp]
      funext i
      fin_cases i <;> simp
    have h2 : (compute_gaze_rotation 960 540 100).2 =
        ![gaze_pitch 540 100, gaze_yaw 960 100, 0] := by
      show (if norm3 ![gaze_pitch 540 100, gaze_yaw 960 100, 0] > 0 then
        (fun i => (![gaze_pitch 540 100, gaze_yaw 960 100, 0] : Fin 3 → ℝ) i /
          norm3 ![gaze_pitch 540 100, gaze_yaw 960 100, 0])
        else ![gaze_pitch 540 100, gaze_yaw 960 100, 0]) = _
      rw [if_neg]
      rw [(norm3_eq_zero_iff _).mpr hzero]
      norm_num
    rw [h2, hzero]
  · rfl
